import Mathlib

/-!
Perpendicular drawing helpers of `src/ol/perpendicularCalculations.js` and the
utilities of `src/ol/util.js`.

A shallow embedding of `getPerpendicularCoordinates`, `getPerpendicularAzimuth`,
`getPrependicularDestination`, `transformCoordForGeolib`,
`transformCoordFromGeolib`, `replaceLastArrayEntry` and `getUid`, followed by the
properties of the specification that concern them.

Modelling choices:

* A JavaScript number is modelled by an element of a linearly ordered field `α`
  (decidable order and equality).  Every theorem therefore holds for real
  coordinates, and every definition can be evaluated over `ℚ`.  NaN, infinities
  and rounding are outside the model.
* A point `[a, b]` is the pair `(a, b)`: index `0` is the first component,
  index `1` the second.
* `geod` (the WGS84 geodesic of GeographicLib) is a third-party library.  It is
  taken as a parameter: a record with the two operations the code calls, returning
  the fields the code reads.
* Statements that `return` early are written in the `Id` monad so that the
  control flow of the source is kept line by line.
* Where a function works on an array in place, the array is a list and the
  function returns, next to its result, the content of the array it was given as
  it stands when the call returns (`ArrayCall`).
* `getUid` reads and writes the module counter and the property `ol_uid` of its
  argument.  The counter, the own property of every object and the prototype of
  every object are carried in an explicit state (`UidState`); the property read
  follows the prototype chain, and the counter stops at `2 ^ 53` as a JavaScript
  number does.
-/

/-- Outcome of a call that receives an array: the content of the array of the
caller when the call returns, and the returned array. -/
structure ArrayCall (β : Type) where
  argument : List β
  returned : List β

namespace PerpendicularCalculations

/-! ## Data model -/

/-- A point is a two element array of numbers. -/
abbrev Point (α : Type) := α × α

/-- The fields of the result of `geod.Inverse` that the code reads. -/
structure InverseResult (α : Type) where
  azi1 : α
  s12 : α

/-- The fields of the result of `geod.Direct` that the code reads. -/
structure DirectResult (α : Type) where
  lat2 : α
  lon2 : α

/-- The geodesic engine: `Inverse lat1 lon1 lat2 lon2` and
`Direct lat1 lon1 azi1 s12`. -/
structure Geodesic (α : Type) where
  Inverse : α → α → α → α → InverseResult α
  Direct : α → α → α → α → DirectResult α

variable {α : Type} [LinearOrderedField α]

/-! ## The source functions -/

/-- Source: `getPerpendicularCoordinates` (lines 17-54). -/
def getPerpendicularCoordinates (lastPoint currentPoint : Point α) :
    Point α × Point α := Id.run do
  -- NW
  if currentPoint.1 > lastPoint.1 ∧ currentPoint.2 < lastPoint.2 then
    return ((lastPoint.1, lastPoint.2), (lastPoint.1, currentPoint.2))
  -- NE
  if currentPoint.1 > lastPoint.1 ∧ currentPoint.2 > lastPoint.2 then
    return ((lastPoint.1, lastPoint.2), (currentPoint.1, lastPoint.2))
  -- SE
  if currentPoint.1 < lastPoint.1 ∧ currentPoint.2 > lastPoint.2 then
    return ((lastPoint.1, lastPoint.2), (lastPoint.1, currentPoint.2))
  -- SW
  if currentPoint.1 < lastPoint.1 ∧ currentPoint.2 < lastPoint.2 then
    return ((lastPoint.1, lastPoint.2), (currentPoint.1, lastPoint.2))
  return ((lastPoint.1, lastPoint.2), (currentPoint.1, currentPoint.2))

/-- Source: `getPerpendicularAzimuth` (lines 69-197). -/
def getPerpendicularAzimuth (geod : Geodesic α)
    (lastPoint penultimatePoint currentPoint : Point α) : α := Id.run do
  let drawnLineAzimuth :=
    (geod.Inverse lastPoint.1 lastPoint.2 penultimatePoint.1 penultimatePoint.2).azi1
  -- NE
  if lastPoint.1 > penultimatePoint.1 ∧ lastPoint.2 > penultimatePoint.2 then
    if drawnLineAzimuth > -130 then
      if currentPoint.1 > lastPoint.1 then
        return drawnLineAzimuth + 90
      if currentPoint.1 < lastPoint.1 then
        return drawnLineAzimuth - 90
    if currentPoint.2 > lastPoint.2 then
      return drawnLineAzimuth - 90
    if currentPoint.2 < lastPoint.2 then
      return drawnLineAzimuth + 90
  -- NW
  if lastPoint.1 > penultimatePoint.1 ∧ lastPoint.2 < penultimatePoint.2 then
    if drawnLineAzimuth < 130 then
      if currentPoint.1 > lastPoint.1 then
        return drawnLineAzimuth - 90
      if currentPoint.1 < lastPoint.1 then
        return drawnLineAzimuth + 90
    if currentPoint.2 > lastPoint.2 then
      return drawnLineAzimuth - 90
    if currentPoint.2 < lastPoint.2 then
      return drawnLineAzimuth + 90
  -- SE
  if lastPoint.1 < penultimatePoint.1 ∧ lastPoint.2 > penultimatePoint.2 then
    if drawnLineAzimuth < -50 then
      if currentPoint.1 > lastPoint.1 then
        return drawnLineAzimuth + 90
      if currentPoint.1 < lastPoint.1 then
        return drawnLineAzimuth - 90
    if currentPoint.2 > lastPoint.2 then
      return drawnLineAzimuth + 90
    if currentPoint.2 < lastPoint.2 then
      return drawnLineAzimuth - 90
  -- SW
  if lastPoint.1 < penultimatePoint.1 ∧ lastPoint.2 < penultimatePoint.2 then
    if drawnLineAzimuth > 50 then
      if currentPoint.1 > lastPoint.1 then
        return drawnLineAzimuth - 90
      if currentPoint.1 < lastPoint.1 then
        return drawnLineAzimuth + 90
    if currentPoint.2 > lastPoint.2 then
      return drawnLineAzimuth + 90
    if currentPoint.2 < lastPoint.2 then
      return drawnLineAzimuth - 90
  -- N & S
  if lastPoint.2 = penultimatePoint.2 then
    if currentPoint.2 > lastPoint.2 then
      return 90
    return -90
  -- W & E
  if lastPoint.1 = penultimatePoint.1 then
    if currentPoint.1 > lastPoint.1 then
      return 0
    return 180
  return drawnLineAzimuth

/-- Source: `getPrependicularDestination` (lines 207-232). -/
def getPrependicularDestination (geod : Geodesic α)
    (lastPoint penultimatePoint currentPoint : Point α) : Point α :=
  let sketchLine := geod.Inverse lastPoint.1 lastPoint.2 currentPoint.1 currentPoint.2
  let azimuth := getPerpendicularAzimuth geod lastPoint penultimatePoint currentPoint
  let destination := geod.Direct lastPoint.1 lastPoint.2 azimuth sketchLine.s12
  (destination.lat2, destination.lon2)

/-! ## Vocabulary of the specification

The definitions below follow the words of the specification (section 4.2 and
section 8); the theorems compare the source functions with them. -/

/-- The value `drawnAzimuth` of the specification: `azi1` of the inverse problem
from `lastPoint` to `penultimatePoint`, in that direction. -/
def drawnAzimuth (geod : Geodesic α) (lastPoint penultimatePoint : Point α) : α :=
  (geod.Inverse lastPoint.1 lastPoint.2 penultimatePoint.1 penultimatePoint.2).azi1

/-- Bearing from `p` to `q` as the engine reports it. -/
def bearing (geod : Geodesic α) (p q : Point α) : α :=
  (geod.Inverse p.1 p.2 q.1 q.2).azi1

/-- Geodesic distance from `p` to `q` as the engine reports it. -/
def distance (geod : Geodesic α) (p q : Point α) : α :=
  (geod.Inverse p.1 p.2 q.1 q.2).s12

/-- The four diagonal quadrants of the specification. -/
inductive Quadrant where
  | NE | NW | SE | SW
  deriving DecidableEq

/-- The four columns of the quadrant sign table of the specification. -/
inductive Column where
  | xGreater | xSmaller | yGreater | ySmaller
  deriving DecidableEq

/-- Specification, 4.2 step 2: the diagonal quadrant of the drawn segment, from
the comparison of `lastPoint` with `penultimatePoint` on each axis
(x is coordinate 0, y is coordinate 1); `none` for an axis-aligned or zero-length
segment. -/
def specQuadrant (lastPoint penultimatePoint : Point α) : Option Quadrant :=
  if lastPoint.1 > penultimatePoint.1 ∧ lastPoint.2 > penultimatePoint.2 then
    some Quadrant.NE
  else if lastPoint.1 > penultimatePoint.1 ∧ lastPoint.2 < penultimatePoint.2 then
    some Quadrant.NW
  else if lastPoint.1 < penultimatePoint.1 ∧ lastPoint.2 > penultimatePoint.2 then
    some Quadrant.SE
  else if lastPoint.1 < penultimatePoint.1 ∧ lastPoint.2 < penultimatePoint.2 then
    some Quadrant.SW
  else none

/-- Specification, 4.2 step 3: the quadrant-specific bearing threshold. -/
def specThreshold (q : Quadrant) (d : α) : Prop :=
  match q with
  | Quadrant.NE => d > -130
  | Quadrant.NW => d < 130
  | Quadrant.SE => d < -50
  | Quadrant.SW => d > 50

instance specThresholdDecidable (q : Quadrant) (d : α) : Decidable (specThreshold q d) :=
  match q with
  | Quadrant.NE => inferInstanceAs (Decidable (d > -130))
  | Quadrant.NW => inferInstanceAs (Decidable (d < 130))
  | Quadrant.SE => inferInstanceAs (Decidable (d < -50))
  | Quadrant.SW => inferInstanceAs (Decidable (d > 50))

/-- Specification, 4.2: the quadrant sign table, `1` for `+90` and `-1` for `-90`. -/
def specSign : Quadrant → Column → α
  | Quadrant.NE, Column.xGreater => 1
  | Quadrant.NE, Column.xSmaller => -1
  | Quadrant.NE, Column.yGreater => -1
  | Quadrant.NE, Column.ySmaller => 1
  | Quadrant.NW, Column.xGreater => -1
  | Quadrant.NW, Column.xSmaller => 1
  | Quadrant.NW, Column.yGreater => -1
  | Quadrant.NW, Column.ySmaller => 1
  | Quadrant.SE, Column.xGreater => 1
  | Quadrant.SE, Column.xSmaller => -1
  | Quadrant.SE, Column.yGreater => 1
  | Quadrant.SE, Column.ySmaller => -1
  | Quadrant.SW, Column.xGreater => -1
  | Quadrant.SW, Column.xSmaller => 1
  | Quadrant.SW, Column.yGreater => 1
  | Quadrant.SW, Column.ySmaller => -1

/-- Specification, section 8: the azimuth `r` is `d + 90` or `d - 90` modulo 360,
or one of the fixed axis-aligned values 0, 90, 180, -90. -/
def IsRightAngleOrAxis (d r : α) : Prop :=
  (∃ k : ℤ, r = d + 90 + 360 * (k : α)) ∨ (∃ k : ℤ, r = d - 90 + 360 * (k : α)) ∨
    r = 0 ∨ r = 90 ∨ r = 180 ∨ r = -90

/-- Specification, section 8: two bearings differ by exactly 90 degrees modulo 180. -/
def DiffersBy90Mod180 (b₁ b₂ : α) : Prop :=
  ∃ k : ℤ, b₁ - b₂ = 90 + 180 * (k : α)

/-- An engine in which `Inverse` recovers the bearing and the distance given to
`Direct`. -/
def RecoversDirect (geod : Geodesic α) : Prop :=
  ∀ lat lon azi s : α,
    (geod.Inverse lat lon (geod.Direct lat lon azi s).lat2
        (geod.Direct lat lon azi s).lon2).azi1 = azi ∧
    (geod.Inverse lat lon (geod.Direct lat lon azi s).lat2
        (geod.Direct lat lon azi s).lon2).s12 = s

/-- An engine in which `Inverse` recovers the distance given to `Direct`. -/
def RecoversDistance (geod : Geodesic α) : Prop :=
  ∀ lat lon azi s : α,
    (geod.Inverse lat lon (geod.Direct lat lon azi s).lat2
        (geod.Direct lat lon azi s).lon2).s12 = s

/-! ## Sample engines over `ℚ`

Two small engines on which the definitions can be evaluated. -/

/-- Sample engine: the azimuth is carried by the first coordinate and the
distance by the second, so `Inverse` recovers exactly what `Direct` was given. -/
def shiftEngine : Geodesic ℚ where
  Inverse := fun lat1 lon1 lat2 lon2 => ⟨lat2 - lat1, lon2 - lon1⟩
  Direct := fun lat1 lon1 azi1 s12 => ⟨lat1 + azi1, lon1 + s12⟩

/-- Sample engine: every journey runs along the first coordinate; the distance
between a point and itself is 0 and a journey of length 0 stays in place. -/
def northEngine : Geodesic ℚ where
  Inverse := fun lat1 _ lat2 _ => ⟨0, lat2 - lat1⟩
  Direct := fun lat1 lon1 _ s12 => ⟨lat1 + s12, lon1⟩

/-- Sample engine: `Inverse` reports the given azimuth for every pair of points
and distance 0; `Direct` stays in place. -/
def fixedAzimuthEngine (azi : ℚ) : Geodesic ℚ where
  Inverse := fun _ _ _ _ => ⟨azi, 0⟩
  Direct := fun lat1 lon1 _ _ => ⟨lat1, lon1⟩

/-- Source: `getPerpendicularAzimuth` (lines 69-197) once more, each `return`
paired with the source line it stands on, so that statements about which
`return` is reached can be made. -/
def getPerpendicularAzimuthReturn (geod : Geodesic α)
    (lastPoint penultimatePoint currentPoint : Point α) : Nat × α := Id.run do
  let drawnLineAzimuth :=
    (geod.Inverse lastPoint.1 lastPoint.2 penultimatePoint.1 penultimatePoint.2).azi1
  -- NE
  if lastPoint.1 > penultimatePoint.1 ∧ lastPoint.2 > penultimatePoint.2 then
    if drawnLineAzimuth > -130 then
      if currentPoint.1 > lastPoint.1 then
        return (89, drawnLineAzimuth + 90)
      if currentPoint.1 < lastPoint.1 then
        return (93, drawnLineAzimuth - 90)
    if currentPoint.2 > lastPoint.2 then
      return (98, drawnLineAzimuth - 90)
    if currentPoint.2 < lastPoint.2 then
      return (102, drawnLineAzimuth + 90)
  -- NW
  if lastPoint.1 > penultimatePoint.1 ∧ lastPoint.2 < penultimatePoint.2 then
    if drawnLineAzimuth < 130 then
      if currentPoint.1 > lastPoint.1 then
        return (113, drawnLineAzimuth - 90)
      if currentPoint.1 < lastPoint.1 then
        return (117, drawnLineAzimuth + 90)
    if currentPoint.2 > lastPoint.2 then
      return (122, drawnLineAzimuth - 90)
    if currentPoint.2 < lastPoint.2 then
      return (126, drawnLineAzimuth + 90)
  -- SE
  if lastPoint.1 < penultimatePoint.1 ∧ lastPoint.2 > penultimatePoint.2 then
    if drawnLineAzimuth < -50 then
      if currentPoint.1 > lastPoint.1 then
        return (137, drawnLineAzimuth + 90)
      if currentPoint.1 < lastPoint.1 then
        return (141, drawnLineAzimuth - 90)
    if currentPoint.2 > lastPoint.2 then
      return (146, drawnLineAzimuth + 90)
    if currentPoint.2 < lastPoint.2 then
      return (150, drawnLineAzimuth - 90)
  -- SW
  if lastPoint.1 < penultimatePoint.1 ∧ lastPoint.2 < penultimatePoint.2 then
    if drawnLineAzimuth > 50 then
      if currentPoint.1 > lastPoint.1 then
        return (161, drawnLineAzimuth - 90)
      if currentPoint.1 < lastPoint.1 then
        return (165, drawnLineAzimuth + 90)
    if currentPoint.2 > lastPoint.2 then
      return (170, drawnLineAzimuth + 90)
    if currentPoint.2 < lastPoint.2 then
      return (174, drawnLineAzimuth - 90)
  -- N & S
  if lastPoint.2 = penultimatePoint.2 then
    if currentPoint.2 > lastPoint.2 then
      return (181, 90)
    return (184, -90)
  -- W & E
  if lastPoint.1 = penultimatePoint.1 then
    if currentPoint.1 > lastPoint.1 then
      return (190, 0)
    return (193, 180)
  return (196, drawnLineAzimuth)

/-- Source: `DEFAULT_OL_CRS` (line 6). -/
def DEFAULT_OL_CRS : String := "EPSG:3857"

/-- Source: `DEFAULT_GEOLIB_CRS` (line 7). -/
def DEFAULT_GEOLIB_CRS : String := "EPSG:4326"

/-- Source: `transformCoordForGeolib` (lines 234-235).  `transform` (of
`./proj.js`, not part of the sources at hand) is a parameter: a function that
leaves its argument alone and returns a new array.  `reverse()` then reverses
that new array in place and returns it. -/
def transformCoordForGeolib {β : Type} (transform : List β → String → String → List β)
    (coords : List β) : ArrayCall β :=
  let transformed := transform coords DEFAULT_OL_CRS DEFAULT_GEOLIB_CRS
  let transformed := transformed.reverse
  { argument := coords, returned := transformed }

/-- Source: `transformCoordFromGeolib` (lines 237-238).  `coords.reverse()`
reverses the array of the caller in place and returns that same array, which is
then handed to `transform`. -/
def transformCoordFromGeolib {β : Type} (transform : List β → String → String → List β)
    (coords : List β) : ArrayCall β :=
  let coords := coords.reverse
  { argument := coords, returned := transform coords DEFAULT_GEOLIB_CRS DEFAULT_OL_CRS }

/-- Sample reprojection over `ℚ`: halves every component from the map projection
to the geographic system and doubles it on the way back. -/
def sampleTransform (coords : List ℚ) (source destination : String) : List ℚ :=
  if source = DEFAULT_OL_CRS ∧ destination = DEFAULT_GEOLIB_CRS then
    coords.map (fun c => c / 2)
  else if source = DEFAULT_GEOLIB_CRS ∧ destination = DEFAULT_OL_CRS then
    coords.map (fun c => c * 2)
  else coords

end PerpendicularCalculations

namespace Util

/-! ## `src/ol/util.js` -/

/-- Source: `replaceLastArrayEntry` (lines 48-53).  `slice()` makes a copy, so
`pop` and `push` act on the copy and the array of the caller keeps its content. -/
def replaceLastArrayEntry {β : Type} (array : List β) (itemToReplace : β) :
    ArrayCall β :=
  -- const replacedArray = array.slice();
  let replacedArray := array
  -- replacedArray.pop();
  let replacedArray := replacedArray.dropLast
  -- replacedArray.push(itemToReplace);
  let replacedArray := replacedArray ++ [itemToReplace]
  { argument := array, returned := replacedArray }

/-- Objects are identified by a reference.  They are numbered so that the
prototype of an object has a smaller number than the object itself: prototype
chains are acyclic and end after finitely many steps. -/
abbrev Obj := Nat

/-- The module variable `uidCounter_`, the own property `ol_uid` of every object
(`none` when the object has no such own property) and the prototype of every
object (`none` when it has none). -/
structure UidState where
  uidCounter_ : Nat
  ol_uid : Obj → Option String
  prototype : (obj : Obj) → Option (Fin obj)

/-- State when the module is loaded (`let uidCounter_ = 0`), with objects that
carry no `ol_uid` of their own, linked by the given prototypes. -/
def initialState (prototype : (obj : Obj) → Option (Fin obj)) : UidState :=
  { uidCounter_ := 0, ol_uid := fun _ => none, prototype := prototype }

/-- The property read `obj.ol_uid`: the own property if there is one, otherwise
the property read on the prototype; `none` (undefined) at the end of the chain.
The first argument bounds the number of steps along the chain. -/
def readOlUid (st : UidState) : Nat → Obj → Option String
  | 0, _ => none
  | steps + 1, obj =>
    match st.ol_uid obj with
    | some uid => some uid
    | none =>
      match st.prototype obj with
      | some parent => readOlUid st steps parent.val
      | none => none

/-- The operation `++uidCounter_` on a JavaScript number: exact below `2 ^ 53`,
where `2 ^ 53 + 1` rounds back to `2 ^ 53`.  Larger counters are not reached
from 0. -/
def increment (n : Nat) : Nat :=
  if n < 9007199254740992 then n + 1 else n

/-- Source: `getUid` (lines 32-34):
`obj.ol_uid || (obj.ol_uid = String(++uidCounter_))`.  The read follows the
prototype chain (a chain from `obj` has at most `obj + 1` members); undefined
and the empty string are falsy; the assignment creates an own property of `obj`;
`String(n)` is the decimal string of `n`. -/
def getUid (st : UidState) (obj : Obj) : String × UidState :=
  let assign : String × UidState :=
    let counter := increment st.uidCounter_
    (toString counter,
      { uidCounter_ := counter,
        ol_uid := Function.update st.ol_uid obj (some (toString counter)),
        prototype := st.prototype })
  match readOlUid st (obj + 1) obj with
  | some uid => if uid = "" then assign else (uid, st)
  | none => assign

/-- A sequence of `getUid` calls, one per listed object, in order; the state
after the last call. -/
def getUidCalls (st : UidState) : List Obj → UidState
  | [] => st
  | obj :: rest => getUidCalls (getUid st obj).2 rest

/-- Sample prototypes: object 1 was made by `Object.create` from object 0; no
other object has a prototype. -/
def childOfZero (obj : Obj) : Option (Fin obj) :=
  if h : obj = 1 then some ⟨0, h ▸ Nat.zero_lt_one⟩ else none

/-- Value of a decimal digit character. -/
def digitValue (c : Char) : Nat := c.toNat - 48

/-- Value of a list of decimal digit characters, most significant first. -/
def decimalValue (cs : List Char) : Nat :=
  cs.foldl (fun acc c => acc * 10 + digitValue c) 0

end Util

namespace PerpendicularCalculations

variable {α : Type} [LinearOrderedField α]

/-! ## Auxiliary lemmas -/

theorem specQuadrant_eq_some {l p : Point α} {q : Quadrant}
    (h : specQuadrant l p = some q) :
    (q = Quadrant.NE ∧ l.1 > p.1 ∧ l.2 > p.2) ∨
    (q = Quadrant.NW ∧ l.1 > p.1 ∧ l.2 < p.2) ∨
    (q = Quadrant.SE ∧ l.1 < p.1 ∧ l.2 > p.2) ∨
    (q = Quadrant.SW ∧ l.1 < p.1 ∧ l.2 < p.2) := by
  unfold specQuadrant at h
  split_ifs at h with h1 h2 h3 h4
  · simp at h; subst h; simp [h1]
  · simp at h; subst h; simp [h2]
  · simp at h; subst h; simp [h3]
  · simp at h; subst h; simp [h4]

theorem specQuadrant_eq_none {l p : Point α} (h : specQuadrant l p = none) :
    l.1 = p.1 ∨ l.2 = p.2 := by
  unfold specQuadrant at h
  split_ifs at h with h1 h2 h3 h4
  rcases lt_trichotomy l.1 p.1 with a | a | a
  · rcases lt_trichotomy l.2 p.2 with b | b | b
    · exact absurd ⟨a, b⟩ h4
    · exact Or.inr b
    · exact absurd ⟨a, b⟩ h3
  · exact Or.inl a
  · rcases lt_trichotomy l.2 p.2 with b | b | b
    · exact absurd ⟨a, b⟩ h2
    · exact Or.inr b
    · exact absurd ⟨a, b⟩ h1

/-- Primary rule: diagonal segment, threshold holds, `currentPoint` off the
vertical through `lastPoint`. -/
theorem azimuth_primary (geod : Geodesic α) (l p c : Point α) (q : Quadrant)
    (hq : specQuadrant l p = some q) (hth : specThreshold q (drawnAzimuth geod l p))
    (hx : c.1 ≠ l.1) :
    getPerpendicularAzimuth geod l p c = drawnAzimuth geod l p +
      specSign q (if c.1 > l.1 then Column.xGreater else Column.xSmaller) * 90 := by
  rcases lt_or_gt_of_ne hx with hlt | hgt
  · have hn : ¬ c.1 > l.1 := not_lt.mpr hlt.le
    rcases specQuadrant_eq_some hq with
      ⟨rfl, h1, h2⟩ | ⟨rfl, h1, h2⟩ | ⟨rfl, h1, h2⟩ | ⟨rfl, h1, h2⟩ <;>
    · simp only [specThreshold, drawnAzimuth] at hth
      simp [getPerpendicularAzimuth, Id.run, drawnAzimuth, specSign, h1, h2, hth, hlt, hn,
        not_lt.mpr h1.le, not_lt.mpr h2.le, sub_eq_add_neg]
  · have hn : ¬ c.1 < l.1 := not_lt.mpr (le_of_lt hgt)
    rcases specQuadrant_eq_some hq with
      ⟨rfl, h1, h2⟩ | ⟨rfl, h1, h2⟩ | ⟨rfl, h1, h2⟩ | ⟨rfl, h1, h2⟩ <;>
    · simp only [specThreshold, drawnAzimuth] at hth
      simp [getPerpendicularAzimuth, Id.run, drawnAzimuth, specSign, h1, h2, hth, hgt, hn,
        not_lt.mpr h1.le, not_lt.mpr h2.le, sub_eq_add_neg]

/-- Secondary rule: diagonal segment, primary rule not applicable,
`currentPoint` off the horizontal through `lastPoint`. -/
theorem azimuth_secondary (geod : Geodesic α) (l p c : Point α) (q : Quadrant)
    (hq : specQuadrant l p = some q)
    (hth : ¬ specThreshold q (drawnAzimuth geod l p) ∨ c.1 = l.1)
    (hy : c.2 ≠ l.2) :
    getPerpendicularAzimuth geod l p c = drawnAzimuth geod l p +
      specSign q (if c.2 > l.2 then Column.yGreater else Column.ySmaller) * 90 := by
  rcases lt_or_gt_of_ne hy with hlt | hgt
  · have hn : ¬ c.2 > l.2 := not_lt.mpr hlt.le
    rcases specQuadrant_eq_some hq with
      ⟨rfl, h1, h2⟩ | ⟨rfl, h1, h2⟩ | ⟨rfl, h1, h2⟩ | ⟨rfl, h1, h2⟩ <;>
    · simp only [specThreshold, drawnAzimuth] at hth
      rcases hth with hth | hth <;>
      simp [getPerpendicularAzimuth, Id.run, drawnAzimuth, specSign, h1, h2, hth, hlt, hn,
        not_lt.mpr h1.le, not_lt.mpr h2.le, sub_eq_add_neg]
  · have hn : ¬ c.2 < l.2 := not_lt.mpr (le_of_lt hgt)
    rcases specQuadrant_eq_some hq with
      ⟨rfl, h1, h2⟩ | ⟨rfl, h1, h2⟩ | ⟨rfl, h1, h2⟩ | ⟨rfl, h1, h2⟩ <;>
    · simp only [specThreshold, drawnAzimuth] at hth
      rcases hth with hth | hth <;>
      simp [getPerpendicularAzimuth, Id.run, drawnAzimuth, specSign, h1, h2, hth, hgt, hn,
        not_lt.mpr h1.le, not_lt.mpr h2.le, sub_eq_add_neg]

/-- The branch commented `N & S` in the source: equal coordinate 1. -/
theorem azimuth_equal_y (geod : Geodesic α) (l p c : Point α) (h : l.2 = p.2) :
    getPerpendicularAzimuth geod l p c = if c.2 > l.2 then 90 else -90 := by
  simp [getPerpendicularAzimuth, Id.run, h]

/-- The branch commented `W & E` in the source: equal coordinate 0, different
coordinate 1. -/
theorem azimuth_equal_x (geod : Geodesic α) (l p c : Point α) (h : l.1 = p.1)
    (h2 : l.2 ≠ p.2) :
    getPerpendicularAzimuth geod l p c = if c.1 > l.1 then 0 else 180 := by
  simp [getPerpendicularAzimuth, Id.run, h, h2]

theorem specSign_sq (q : Quadrant) (col : Column) :
    (specSign q col : α) = 1 ∨ (specSign q col : α) = -1 := by
  cases q <;> cases col <;> simp [specSign]

/-- The value component of the line-annotated function is the source function. -/
theorem azimuthReturn_value (geod : Geodesic α) (l p c : Point α) :
    (getPerpendicularAzimuthReturn geod l p c).2 = getPerpendicularAzimuth geod l p c := by
  cases hq : specQuadrant l p with
  | some q =>
    rcases specQuadrant_eq_some hq with
      ⟨rfl, h1, h2⟩ | ⟨rfl, h1, h2⟩ | ⟨rfl, h1, h2⟩ | ⟨rfl, h1, h2⟩ <;>
    · simp only [getPerpendicularAzimuthReturn, getPerpendicularAzimuth, Id.run, pure, bind,
        gt_iff_lt, h1, h2, not_lt.mpr h1.le, not_lt.mpr h2.le, ne_of_gt h1, ne_of_gt h2,
        ne_of_lt h1, ne_of_lt h2, and_self, and_true, true_and, and_false, false_and,
        if_true, if_false]
      split_ifs <;> rfl
  | none =>
    by_cases hy : l.2 = p.2
    · simp only [getPerpendicularAzimuthReturn, getPerpendicularAzimuth, Id.run, pure, bind,
        gt_iff_lt, hy, lt_irrefl, and_false, false_and, if_true, if_false]
      split_ifs <;> rfl
    · have hx : l.1 = p.1 := by
        rcases specQuadrant_eq_none hq with h | h
        · exact h
        · exact absurd h hy
      simp only [getPerpendicularAzimuthReturn, getPerpendicularAzimuth, Id.run, pure, bind,
        gt_iff_lt, hx, hy, lt_irrefl, and_false, false_and, if_true, if_false]
      split_ifs <;> rfl

/-- No branch matches: diagonal segment, primary rule not applicable, cursor on
the horizontal through `lastPoint`. -/
theorem azimuthReturn_fallthrough (geod : Geodesic α) (l p c : Point α) (q : Quadrant)
    (hq : specQuadrant l p = some q)
    (hth : ¬ specThreshold q (drawnAzimuth geod l p) ∨ c.1 = l.1)
    (hy : c.2 = l.2) :
    getPerpendicularAzimuthReturn geod l p c = (196, drawnAzimuth geod l p) := by
  rcases specQuadrant_eq_some hq with
    ⟨rfl, h1, h2⟩ | ⟨rfl, h1, h2⟩ | ⟨rfl, h1, h2⟩ | ⟨rfl, h1, h2⟩ <;>
  · simp only [specThreshold, drawnAzimuth] at hth
    rcases hth with hth | hth <;>
    simp [getPerpendicularAzimuthReturn, Id.run, drawnAzimuth, h1, h2, hth, hy,
      not_lt.mpr h1.le, not_lt.mpr h2.le, ne_of_gt h1, ne_of_gt h2, ne_of_lt h1, ne_of_lt h2]

/-- On a diagonal segment whose threshold holds, with the cursor off the
vertical through `lastPoint`, a `return` of the primary rule is reached. -/
theorem azimuthReturn_primary (geod : Geodesic α) (l p c : Point α) (q : Quadrant)
    (hq : specQuadrant l p = some q) (hth : specThreshold q (drawnAzimuth geod l p))
    (hx : c.1 ≠ l.1) :
    (getPerpendicularAzimuthReturn geod l p c).1 ≠ 196 := by
  rcases lt_or_gt_of_ne hx with hlt | hgt
  · have hn : ¬ c.1 > l.1 := not_lt.mpr hlt.le
    rcases specQuadrant_eq_some hq with
      ⟨rfl, h1, h2⟩ | ⟨rfl, h1, h2⟩ | ⟨rfl, h1, h2⟩ | ⟨rfl, h1, h2⟩ <;>
    · simp only [specThreshold, drawnAzimuth] at hth
      simp [getPerpendicularAzimuthReturn, Id.run, h1, h2, hth, hlt, hn,
        not_lt.mpr h1.le, not_lt.mpr h2.le]
  · have hn : ¬ c.1 < l.1 := not_lt.mpr (le_of_lt hgt)
    rcases specQuadrant_eq_some hq with
      ⟨rfl, h1, h2⟩ | ⟨rfl, h1, h2⟩ | ⟨rfl, h1, h2⟩ | ⟨rfl, h1, h2⟩ <;>
    · simp only [specThreshold, drawnAzimuth] at hth
      simp [getPerpendicularAzimuthReturn, Id.run, h1, h2, hth, hgt, hn,
        not_lt.mpr h1.le, not_lt.mpr h2.le]

/-- On a diagonal segment where the primary rule does not apply, with the cursor
off the horizontal through `lastPoint`, a `return` of the secondary rule is
reached. -/
theorem azimuthReturn_secondary (geod : Geodesic α) (l p c : Point α) (q : Quadrant)
    (hq : specQuadrant l p = some q)
    (hth : ¬ specThreshold q (drawnAzimuth geod l p) ∨ c.1 = l.1)
    (hy : c.2 ≠ l.2) :
    (getPerpendicularAzimuthReturn geod l p c).1 ≠ 196 := by
  rcases lt_or_gt_of_ne hy with hlt | hgt
  · have hn : ¬ c.2 > l.2 := not_lt.mpr hlt.le
    rcases specQuadrant_eq_some hq with
      ⟨rfl, h1, h2⟩ | ⟨rfl, h1, h2⟩ | ⟨rfl, h1, h2⟩ | ⟨rfl, h1, h2⟩ <;>
    · simp only [specThreshold, drawnAzimuth] at hth
      rcases hth with hth | hth <;>
      simp [getPerpendicularAzimuthReturn, Id.run, h1, h2, hth, hlt, hn,
        not_lt.mpr h1.le, not_lt.mpr h2.le]
  · have hn : ¬ c.2 < l.2 := not_lt.mpr (le_of_lt hgt)
    rcases specQuadrant_eq_some hq with
      ⟨rfl, h1, h2⟩ | ⟨rfl, h1, h2⟩ | ⟨rfl, h1, h2⟩ | ⟨rfl, h1, h2⟩ <;>
    · simp only [specThreshold, drawnAzimuth] at hth
      rcases hth with hth | hth <;>
      simp [getPerpendicularAzimuthReturn, Id.run, h1, h2, hth, hgt, hn,
        not_lt.mpr h1.le, not_lt.mpr h2.le]

/-- On an axis-aligned segment one of the two axis branches returns. -/
theorem azimuthReturn_axis (geod : Geodesic α) (l p c : Point α)
    (h : l.1 = p.1 ∨ l.2 = p.2) :
    (getPerpendicularAzimuthReturn geod l p c).1 ≠ 196 := by
  by_cases hy : l.2 = p.2
  · simp only [getPerpendicularAzimuthReturn, Id.run, pure, bind, gt_iff_lt, hy, lt_irrefl,
      and_false, false_and, if_true, if_false]
    split_ifs <;> simp
  · have hx : l.1 = p.1 := by
      rcases h with h | h
      · exact h
      · exact absurd h hy
    simp only [getPerpendicularAzimuthReturn, Id.run, pure, bind, gt_iff_lt, hx, hy,
      lt_irrefl, and_false, false_and, if_true, if_false]
    split_ifs <;> simp

/-! ## Claims about `getPerpendicularAzimuth` -/

/-- Where a branch matches, the result is a right angle or an axis value: for
all points with `lastPoint ≠ penultimatePoint` and every engine, unless the
segment is strictly diagonal and the cursor has the same coordinate 1 as
`lastPoint` while the primary rule does not apply, `getPerpendicularAzimuth`
returns exactly `drawnAzimuth + 90`, `drawnAzimuth - 90` or one of the fixed values
0, 90, 180, -90. -/
theorem azimuth_right_angle_or_axis (geod : Geodesic α)
    (lastPoint penultimatePoint currentPoint : Point α)
    (_hne : lastPoint ≠ penultimatePoint)
    (hrule : ∀ q, specQuadrant lastPoint penultimatePoint = some q →
      currentPoint.2 ≠ lastPoint.2 ∨
      (specThreshold q (drawnAzimuth geod lastPoint penultimatePoint) ∧
        currentPoint.1 ≠ lastPoint.1)) :
    getPerpendicularAzimuth geod lastPoint penultimatePoint currentPoint =
        drawnAzimuth geod lastPoint penultimatePoint + 90 ∨
    getPerpendicularAzimuth geod lastPoint penultimatePoint currentPoint =
        drawnAzimuth geod lastPoint penultimatePoint - 90 ∨
    getPerpendicularAzimuth geod lastPoint penultimatePoint currentPoint = 0 ∨
    getPerpendicularAzimuth geod lastPoint penultimatePoint currentPoint = 90 ∨
    getPerpendicularAzimuth geod lastPoint penultimatePoint currentPoint = 180 ∨
    getPerpendicularAzimuth geod lastPoint penultimatePoint currentPoint = -90 := by
  have signed : ∀ (q : Quadrant) (col : Column) (r : α),
      r = drawnAzimuth geod lastPoint penultimatePoint + specSign q col * 90 →
      r = drawnAzimuth geod lastPoint penultimatePoint + 90 ∨
      r = drawnAzimuth geod lastPoint penultimatePoint - 90 := by
    intro q col r hr
    rcases specSign_sq (α := α) q col with hs | hs
    · left; rw [hr, hs]; ring
    · right; rw [hr, hs]; ring
  cases hq : specQuadrant lastPoint penultimatePoint with
  | some q =>
    by_cases hprim : specThreshold q (drawnAzimuth geod lastPoint penultimatePoint) ∧
        currentPoint.1 ≠ lastPoint.1
    · rcases signed q _ _ (azimuth_primary geod _ _ _ q hq hprim.1 hprim.2) with h | h
      · exact Or.inl h
      · exact Or.inr (Or.inl h)
    · have hy : currentPoint.2 ≠ lastPoint.2 := by
        rcases hrule q hq with h | h
        · exact h
        · exact absurd h hprim
      have hsec : ¬ specThreshold q (drawnAzimuth geod lastPoint penultimatePoint) ∨
          currentPoint.1 = lastPoint.1 := by
        by_cases ht : specThreshold q (drawnAzimuth geod lastPoint penultimatePoint)
        · right
          by_contra hx
          exact hprim ⟨ht, hx⟩
        · exact Or.inl ht
      rcases signed q _ _ (azimuth_secondary geod _ _ _ q hq hsec hy) with h | h
      · exact Or.inl h
      · exact Or.inr (Or.inl h)
  | none =>
    by_cases hy : lastPoint.2 = penultimatePoint.2
    · rw [azimuth_equal_y geod _ _ _ hy]
      split_ifs
      · exact Or.inr (Or.inr (Or.inr (Or.inl rfl)))
      · exact Or.inr (Or.inr (Or.inr (Or.inr (Or.inr rfl))))
    · have hx : lastPoint.1 = penultimatePoint.1 := by
        rcases specQuadrant_eq_none hq with h | h
        · exact h
        · exact absurd h hy
      rw [azimuth_equal_x geod _ _ _ hx hy]
      split_ifs
      · exact Or.inr (Or.inr (Or.inl rfl))
      · exact Or.inr (Or.inr (Or.inr (Or.inr (Or.inl rfl))))

/-- C1 (the code at the failing input). For `lastPoint = (10, 1)`,
`penultimatePoint = (0, 0)`, `currentPoint = (20, 1)` and every engine whose
azimuth from `lastPoint` to `penultimatePoint` is at most -130 (GeographicLib
reports about -174.22): the segment is in the NE quadrant, the threshold
`d > -130` fails and the cursor has the coordinate 1 of `lastPoint`, so no branch
matches and line 196 returns `drawnAzimuth` itself, which is neither
`d + 90` nor `d - 90` modulo 360 nor one of 0, 90, 180, -90. -/
theorem C1_fall_through_at_failing_input (geod : Geodesic α)
    (hd : drawnAzimuth geod (10, 1) (0, 0) ≤ -130) :
    getPerpendicularAzimuth geod (10, 1) (0, 0) (20, 1) =
      drawnAzimuth geod (10, 1) (0, 0) ∧
    (getPerpendicularAzimuthReturn geod (10, 1) (0, 0) (20, 1)).1 = 196 ∧
    ¬ IsRightAngleOrAxis (drawnAzimuth geod (10, 1) (0, 0))
        (getPerpendicularAzimuth geod (10, 1) (0, 0) (20, 1)) := by
  have hq : specQuadrant ((10, 1) : Point α) (0, 0) = some Quadrant.NE := by
    simp [specQuadrant]
  have hth : ¬ specThreshold Quadrant.NE (drawnAzimuth geod (10, 1) (0, 0)) := by
    simp only [specThreshold]
    exact not_lt.mpr hd
  have h := azimuthReturn_fallthrough geod (10, 1) (0, 0) (20, 1) Quadrant.NE hq
    (Or.inl hth) rfl
  have hval : getPerpendicularAzimuth geod (10, 1) (0, 0) (20, 1) =
      drawnAzimuth geod (10, 1) (0, 0) := by
    rw [← azimuthReturn_value, h]
  refine ⟨hval, by rw [h], ?_⟩
  rw [hval]
  rintro (⟨k, hk⟩ | ⟨k, hk⟩ | h0 | h0 | h0 | h0)
  · have h2 : (360 : α) * (k : α) = -90 := by linarith
    have h3 : (360 : ℤ) * k = -90 := by exact_mod_cast h2
    omega
  · have h2 : (360 : α) * (k : α) = 90 := by linarith
    have h3 : (360 : ℤ) * k = 90 := by exact_mod_cast h2
    omega
  · rw [h0] at hd; norm_num at hd
  · rw [h0] at hd; norm_num at hd
  · rw [h0] at hd; norm_num at hd
  · rw [h0] at hd; norm_num at hd

/-- Witness of C1: an engine reporting the azimuth -174.22 at the failing input. -/
theorem C1_fall_through_at_failing_input_witness :
    drawnAzimuth (fixedAzimuthEngine (-8711 / 50)) (10, 1) (0, 0) ≤ -130 ∧
    getPerpendicularAzimuth (fixedAzimuthEngine (-8711 / 50)) (10, 1) (0, 0) (20, 1) =
      drawnAzimuth (fixedAzimuthEngine (-8711 / 50)) (10, 1) (0, 0) :=
  ⟨by norm_num [drawnAzimuth, fixedAzimuthEngine],
    (C1_fall_through_at_failing_input (fixedAzimuthEngine (-8711 / 50))
      (by norm_num [drawnAzimuth, fixedAzimuthEngine])).1⟩

/-- C2. Primary rule: for a strictly diagonal segment whose quadrant threshold
holds and a cursor with `current.x ≠ last.x`, the result is `d + s * 90` with the
sign `s` of the quadrant table (columns x greater, x smaller). -/
theorem C2_primary_rule (geod : Geodesic α)
    (lastPoint penultimatePoint currentPoint : Point α) (q : Quadrant)
    (hq : specQuadrant lastPoint penultimatePoint = some q)
    (hth : specThreshold q (drawnAzimuth geod lastPoint penultimatePoint))
    (hx : currentPoint.1 ≠ lastPoint.1) :
    getPerpendicularAzimuth geod lastPoint penultimatePoint currentPoint =
      drawnAzimuth geod lastPoint penultimatePoint +
        specSign q (if currentPoint.1 > lastPoint.1 then Column.xGreater
          else Column.xSmaller) * 90 :=
  azimuth_primary geod lastPoint penultimatePoint currentPoint q hq hth hx

/-- Witness of C2: an NW segment, cursor on the smaller-x side: `d + 90`. -/
theorem C2_primary_rule_witness :
    specQuadrant ((3, 1) : Point ℚ) (1, 2) = some Quadrant.NW ∧
    specThreshold Quadrant.NW (drawnAzimuth shiftEngine (3, 1) (1, 2)) ∧
    getPerpendicularAzimuth shiftEngine (3, 1) (1, 2) (2, 5) =
      drawnAzimuth shiftEngine (3, 1) (1, 2) +
        specSign Quadrant.NW (if (2 : ℚ) > 3 then Column.xGreater
          else Column.xSmaller) * 90 :=
  ⟨by decide, by norm_num [specThreshold, drawnAzimuth, shiftEngine],
    C2_primary_rule shiftEngine (3, 1) (1, 2) (2, 5) Quadrant.NW (by decide)
      (by norm_num [specThreshold, drawnAzimuth, shiftEngine]) (by decide)⟩

/-- C3. Secondary rule: for a strictly diagonal segment where the quadrant
threshold fails or `current.x = last.x`, and a cursor with `current.y ≠ last.y`,
the result is `d + s * 90` with the sign `s` of the quadrant table (columns
y greater, y smaller). -/
theorem C3_secondary_rule (geod : Geodesic α)
    (lastPoint penultimatePoint currentPoint : Point α) (q : Quadrant)
    (hq : specQuadrant lastPoint penultimatePoint = some q)
    (hth : ¬ specThreshold q (drawnAzimuth geod lastPoint penultimatePoint) ∨
      currentPoint.1 = lastPoint.1)
    (hy : currentPoint.2 ≠ lastPoint.2) :
    getPerpendicularAzimuth geod lastPoint penultimatePoint currentPoint =
      drawnAzimuth geod lastPoint penultimatePoint +
        specSign q (if currentPoint.2 > lastPoint.2 then Column.yGreater
          else Column.ySmaller) * 90 :=
  azimuth_secondary geod lastPoint penultimatePoint currentPoint q hq hth hy

/-- Witness of C3: an SE segment whose threshold `d < -50` fails, cursor on the
greater-y side: `d + 90`. -/
theorem C3_secondary_rule_witness :
    specQuadrant ((1, 5) : Point ℚ) (4, 2) = some Quadrant.SE ∧
    (¬ specThreshold Quadrant.SE (drawnAzimuth shiftEngine (1, 5) (4, 2)) ∨
      (0 : ℚ) = 1) ∧
    getPerpendicularAzimuth shiftEngine (1, 5) (4, 2) (0, 7) =
      drawnAzimuth shiftEngine (1, 5) (4, 2) +
        specSign Quadrant.SE (if (7 : ℚ) > 5 then Column.yGreater
          else Column.ySmaller) * 90 :=
  ⟨by decide, Or.inl (by norm_num [specThreshold, drawnAzimuth, shiftEngine]),
    C3_secondary_rule shiftEngine (1, 5) (4, 2) (0, 7) Quadrant.SE (by decide)
      (Or.inl (by norm_num [specThreshold, drawnAzimuth, shiftEngine])) (by decide)⟩

/-- C4 (as stated, refuted). The segment from (2, 1) to (2, 3) has
`last.x = pen.x` and the cursor (1, 5) has `current.y > last.y`, so the claim
predicts 90; the source reaches its `W & E` branch (equal coordinate 0), compares
coordinate 0 of the cursor and returns 180. -/
theorem C4_counterexample :
    ((2, 3) : Point ℚ) ≠ (2, 1) ∧ ((2, 3) : Point ℚ).1 = ((2, 1) : Point ℚ).1 ∧
    ((1, 5) : Point ℚ).2 > ((2, 3) : Point ℚ).2 ∧
    getPerpendicularAzimuth shiftEngine (2, 3) (2, 1) (1, 5) = 180 ∧
    getPerpendicularAzimuth shiftEngine (2, 3) (2, 1) (1, 5) ≠ 90 := by
  have hr : getPerpendicularAzimuth shiftEngine (2, 3) (2, 1) (1, 5) = 180 := by
    norm_num [getPerpendicularAzimuth, Id.run, shiftEngine]
  refine ⟨by decide, by decide, by decide, hr, ?_⟩
  rw [hr]
  decide

/-- C4 (amended). Axis-aligned rule with the axes as the source tests them: for
every segment with `last.y = pen.y` (coordinate 1, the branch `N & S`) the result
is 90 if `current.y > last.y` and -90 otherwise; for every non-coincident segment
with `last.x = pen.x` (coordinate 0, the branch `W & E`) the result is 0 if
`current.x > last.x` and 180 otherwise; in both cases the result is the same for
any two engines. -/
theorem C4_axis_aligned_rule (geod geod2 : Geodesic α)
    (lastPoint penultimatePoint currentPoint : Point α) :
    (lastPoint.2 = penultimatePoint.2 →
      getPerpendicularAzimuth geod lastPoint penultimatePoint currentPoint =
        if currentPoint.2 > lastPoint.2 then 90 else -90) ∧
    (lastPoint ≠ penultimatePoint → lastPoint.1 = penultimatePoint.1 →
      getPerpendicularAzimuth geod lastPoint penultimatePoint currentPoint =
        if currentPoint.1 > lastPoint.1 then 0 else 180) ∧
    (lastPoint.1 = penultimatePoint.1 ∨ lastPoint.2 = penultimatePoint.2 →
      getPerpendicularAzimuth geod lastPoint penultimatePoint currentPoint =
        getPerpendicularAzimuth geod2 lastPoint penultimatePoint currentPoint) := by
  have hxy : lastPoint ≠ penultimatePoint → lastPoint.1 = penultimatePoint.1 →
      lastPoint.2 ≠ penultimatePoint.2 := by
    intro hne hx hy
    exact hne (Prod.ext hx hy)
  refine ⟨fun hy => azimuth_equal_y geod _ _ _ hy,
    fun hne hx => azimuth_equal_x geod _ _ _ hx (hxy hne hx), ?_⟩
  intro h
  by_cases hy : lastPoint.2 = penultimatePoint.2
  · rw [azimuth_equal_y geod _ _ _ hy, azimuth_equal_y geod2 _ _ _ hy]
  · have hx : lastPoint.1 = penultimatePoint.1 := by
      rcases h with h | h
      · exact h
      · exact absurd h hy
    rw [azimuth_equal_x geod _ _ _ hx hy, azimuth_equal_x geod2 _ _ _ hx hy]

/-- Witness of C4 (amended): one segment with equal coordinate 1 and one with
equal coordinate 0, evaluated on both sample engines. -/
theorem C4_axis_aligned_rule_witness :
    getPerpendicularAzimuth shiftEngine (3, 2) (1, 2) (0, 7) = 90 ∧
    getPerpendicularAzimuth shiftEngine (2, 3) (2, 1) (5, 0) = 0 ∧
    getPerpendicularAzimuth shiftEngine (2, 3) (2, 1) (5, 0) =
      getPerpendicularAzimuth northEngine (2, 3) (2, 1) (5, 0) :=
  ⟨((C4_axis_aligned_rule shiftEngine northEngine (3, 2) (1, 2) (0, 7)).1
      (by decide)).trans (by decide),
    ((C4_axis_aligned_rule shiftEngine northEngine (2, 3) (2, 1) (5, 0)).2.1
      (by decide) (by decide)).trans (by decide),
    (C4_axis_aligned_rule shiftEngine northEngine (2, 3) (2, 1) (5, 0)).2.2
      (Or.inl (by decide))⟩

/-- C5 (as stated, refuted). In scenario A the source does not return 90: the
segment from (0, -1) to (0, 0) has equal coordinate 0, so the branch `W & E`
answers, and with `current[0] = 1 > 0 = last[0]` it returns 0. -/
theorem C5_counterexample :
    getPerpendicularAzimuth shiftEngine (0, 0) (0, -1) (1, 1 / 2) ≠ 90 := by
  have hr : getPerpendicularAzimuth shiftEngine (0, 0) (0, -1) (1, 1 / 2) = 0 := by
    norm_num [getPerpendicularAzimuth, Id.run, shiftEngine]
  rw [hr]
  decide

/-- C5 (amended). Scenario A: for `lastPoint = (0, 0)`,
`penultimatePoint = (0, -1)`, `currentPoint = (1, 0.5)` and any engine,
`getPerpendicularAzimuth` returns 0. -/
theorem C5_scenario_A (geod : Geodesic α) :
    getPerpendicularAzimuth geod (0, 0) (0, -1) (1, 1 / 2) = 0 := by
  rw [azimuth_equal_x geod (0, 0) (0, -1) (1, 1 / 2) rfl (by norm_num)]
  norm_num

/-! ## Claims about `getPrependicularDestination` -/

/-- C6 (as stated, refuted). The sample engine recovers the bearing and distance
given to `Direct`, yet on three valid inputs the bearing from `lastPoint` to the
returned point does not differ by 90 modulo 180 from the bearing of the segment
from `penultimatePoint` to `lastPoint`: a diagonal segment under the primary rule
(difference 88), a diagonal segment on which no branch matches (difference
-298, the returned bearing being `drawnAzimuth` itself) and an axis-aligned
segment (difference 0, the returned bearing being the constant 0). -/
theorem C6_counterexample :
    RecoversDirect shiftEngine ∧
    (((1, 1) : Point ℚ) ≠ (0, 0) ∧ ((1, 1) : Point ℚ) ≠ (2, 3) ∧
      ¬ DiffersBy90Mod180
        (bearing shiftEngine (1, 1)
          (getPrependicularDestination shiftEngine (1, 1) (0, 0) (2, 3)))
        (bearing shiftEngine (0, 0) (1, 1))) ∧
    (((150, 4) : Point ℚ) ≠ (1, 2) ∧ ((150, 4) : Point ℚ) ≠ (160, 4) ∧
      ¬ DiffersBy90Mod180
        (bearing shiftEngine (150, 4)
          (getPrependicularDestination shiftEngine (150, 4) (1, 2) (160, 4)))
        (bearing shiftEngine (1, 2) (150, 4))) ∧
    (((0, 0) : Point ℚ) ≠ (0, -1) ∧ ((0, 0) : Point ℚ) ≠ (1, 1 / 2) ∧
      ¬ DiffersBy90Mod180
        (bearing shiftEngine (0, 0)
          (getPrependicularDestination shiftEngine (0, 0) (0, -1) (1, 1 / 2)))
        (bearing shiftEngine (0, -1) (0, 0))) := by
  refine ⟨?_, ⟨by decide, by decide, ?_⟩, ⟨by decide, by decide, ?_⟩,
    ⟨by decide, by decide, ?_⟩⟩
  · intro lat lon azi s
    simp [shiftEngine]
  · rintro ⟨k, hk⟩
    norm_num [bearing, getPrependicularDestination, getPerpendicularAzimuth, Id.run,
      shiftEngine] at hk
    have h2 : (180 : ℚ) * (k : ℚ) = -2 := by linarith
    have h3 : (180 : ℤ) * k = -2 := by exact_mod_cast h2
    omega
  · rintro ⟨k, hk⟩
    norm_num [bearing, getPrependicularDestination, getPerpendicularAzimuth, Id.run,
      shiftEngine] at hk
    have h2 : (180 : ℚ) * (k : ℚ) = -388 := by linarith
    have h3 : (180 : ℤ) * k = -388 := by exact_mod_cast h2
    omega
  · rintro ⟨k, hk⟩
    norm_num [bearing, getPrependicularDestination, getPerpendicularAzimuth, Id.run,
      shiftEngine] at hk
    have h2 : (180 : ℚ) * (k : ℚ) = -90 := by linarith
    have h3 : (180 : ℤ) * k = -90 := by exact_mod_cast h2
    omega

/-- C6 (amended). Over an engine in which `Inverse` recovers the bearing and
distance given to `Direct`, the bearing from `lastPoint` to the point returned by
`getPrependicularDestination` is the azimuth chosen by `getPerpendicularAzimuth`.
For a strictly diagonal segment on which the primary or the secondary rule
applies it differs by exactly 90 (plus or minus) from `drawnAzimuth`, the
bearing from `lastPoint` back to `penultimatePoint`; for a segment with equal
coordinate 1 it is 90 or -90, and for a non-coincident segment with equal
coordinate 0 it is 0 or 180, whatever bearing the engine gives the segment. -/
theorem C6_perpendicular_bearing (geod : Geodesic α) (hrec : RecoversDirect geod)
    (lastPoint penultimatePoint currentPoint : Point α) :
    bearing geod lastPoint
        (getPrependicularDestination geod lastPoint penultimatePoint currentPoint) =
      getPerpendicularAzimuth geod lastPoint penultimatePoint currentPoint ∧
    (∀ q, specQuadrant lastPoint penultimatePoint = some q →
      (currentPoint.2 ≠ lastPoint.2 ∨
        (specThreshold q (drawnAzimuth geod lastPoint penultimatePoint) ∧
          currentPoint.1 ≠ lastPoint.1)) →
      bearing geod lastPoint
          (getPrependicularDestination geod lastPoint penultimatePoint currentPoint) -
        drawnAzimuth geod lastPoint penultimatePoint = 90 ∨
      bearing geod lastPoint
          (getPrependicularDestination geod lastPoint penultimatePoint currentPoint) -
        drawnAzimuth geod lastPoint penultimatePoint = -90) ∧
    (lastPoint.2 = penultimatePoint.2 →
      bearing geod lastPoint
          (getPrependicularDestination geod lastPoint penultimatePoint currentPoint) =
        if currentPoint.2 > lastPoint.2 then 90 else -90) ∧
    (lastPoint ≠ penultimatePoint → lastPoint.1 = penultimatePoint.1 →
      bearing geod lastPoint
          (getPrependicularDestination geod lastPoint penultimatePoint currentPoint) =
        if currentPoint.1 > lastPoint.1 then 0 else 180) := by
  have hb : bearing geod lastPoint
        (getPrependicularDestination geod lastPoint penultimatePoint currentPoint) =
      getPerpendicularAzimuth geod lastPoint penultimatePoint currentPoint := by
    simp only [bearing, getPrependicularDestination]
    exact (hrec _ _ _ _).1
  refine ⟨hb, ?_, ?_, ?_⟩
  · intro q hq hrule
    rw [hb]
    have signed : ∀ (col : Column) (r : α),
        r = drawnAzimuth geod lastPoint penultimatePoint + specSign q col * 90 →
        r - drawnAzimuth geod lastPoint penultimatePoint = 90 ∨
        r - drawnAzimuth geod lastPoint penultimatePoint = -90 := by
      intro col r hr
      rcases specSign_sq (α := α) q col with hs | hs
      · left; rw [hr, hs]; ring
      · right; rw [hr, hs]; ring
    by_cases hprim : specThreshold q (drawnAzimuth geod lastPoint penultimatePoint) ∧
        currentPoint.1 ≠ lastPoint.1
    · exact signed _ _ (azimuth_primary geod _ _ _ q hq hprim.1 hprim.2)
    · have hy : currentPoint.2 ≠ lastPoint.2 := by
        rcases hrule with h | h
        · exact h
        · exact absurd h hprim
      have hsec : ¬ specThreshold q (drawnAzimuth geod lastPoint penultimatePoint) ∨
          currentPoint.1 = lastPoint.1 := by
        by_cases ht : specThreshold q (drawnAzimuth geod lastPoint penultimatePoint)
        · right
          by_contra hx
          exact hprim ⟨ht, hx⟩
        · exact Or.inl ht
      exact signed _ _ (azimuth_secondary geod _ _ _ q hq hsec hy)
  · intro hy
    rw [hb, azimuth_equal_y geod _ _ _ hy]
  · intro hne hx
    have hy : lastPoint.2 ≠ penultimatePoint.2 := fun hy => hne (Prod.ext hx hy)
    rw [hb, azimuth_equal_x geod _ _ _ hx hy]

theorem shiftEngine_recoversDirect : RecoversDirect shiftEngine := by
  intro lat lon azi s
  simp [shiftEngine]

/-- Witness of C6 (amended): the sample engine on an NE segment under the primary
rule; the returned bearing is 89 and `drawnAzimuth` is -1. -/
theorem C6_perpendicular_bearing_witness :
    RecoversDirect shiftEngine ∧
    specQuadrant ((1, 1) : Point ℚ) (0, 0) = some Quadrant.NE ∧
    (bearing shiftEngine (1, 1)
          (getPrependicularDestination shiftEngine (1, 1) (0, 0) (2, 3)) -
        drawnAzimuth shiftEngine (1, 1) (0, 0) = 90 ∨
      bearing shiftEngine (1, 1)
          (getPrependicularDestination shiftEngine (1, 1) (0, 0) (2, 3)) -
        drawnAzimuth shiftEngine (1, 1) (0, 0) = -90) :=
  ⟨shiftEngine_recoversDirect, by decide,
    (C6_perpendicular_bearing shiftEngine shiftEngine_recoversDirect
      (1, 1) (0, 0) (2, 3)).2.1 Quadrant.NE (by decide) (Or.inl (by decide))⟩

/-- C7. Distance preservation: `getPrependicularDestination` returns
`[lat2, lon2]` of `Direct(lastPoint, a, s)` with `s` the `s12` of
`Inverse(lastPoint, currentPoint)` and `a` the result of
`getPerpendicularAzimuth`; hence over every engine in which `Inverse` recovers
the distance given to `Direct`, the distance from `lastPoint` to the returned
point equals the distance from `lastPoint` to `currentPoint`. -/
theorem C7_distance_preservation (geod : Geodesic α)
    (lastPoint penultimatePoint currentPoint : Point α) :
    getPrependicularDestination geod lastPoint penultimatePoint currentPoint =
      ((geod.Direct lastPoint.1 lastPoint.2
          (getPerpendicularAzimuth geod lastPoint penultimatePoint currentPoint)
          (geod.Inverse lastPoint.1 lastPoint.2 currentPoint.1 currentPoint.2).s12).lat2,
        (geod.Direct lastPoint.1 lastPoint.2
          (getPerpendicularAzimuth geod lastPoint penultimatePoint currentPoint)
          (geod.Inverse lastPoint.1 lastPoint.2 currentPoint.1 currentPoint.2).s12).lon2) ∧
    (RecoversDistance geod →
      distance geod lastPoint
          (getPrependicularDestination geod lastPoint penultimatePoint currentPoint) =
        distance geod lastPoint currentPoint) := by
  refine ⟨rfl, fun hrec => ?_⟩
  simp only [distance, getPrependicularDestination]
  exact hrec _ _ _ _

/-- Witness of C7: on the second sample engine the cursor (5, 1) is at distance
3 from (2, 3), and so is the returned point. -/
theorem C7_distance_preservation_witness :
    RecoversDistance northEngine ∧
    distance northEngine (2, 3)
        (getPrependicularDestination northEngine (2, 3) (1, 1) (5, 1)) =
      distance northEngine (2, 3) (5, 1) ∧
    distance northEngine (2, 3) (5, 1) = 3 :=
  ⟨fun lat lon azi s => by simp [northEngine],
    (C7_distance_preservation northEngine (2, 3) (1, 1) (5, 1)).2
      (fun lat lon azi s => by simp [northEngine]),
    by norm_num [distance, northEngine]⟩

/-- C8. Scenario C: when `currentPoint = lastPoint`, over an engine with
`Inverse(p, p).s12 = 0` and `Direct(p, a, 0) = p` for every azimuth `a`,
`getPrependicularDestination` returns `lastPoint`, whatever azimuth
`getPerpendicularAzimuth` computes. -/
theorem C8_scenario_C (geod : Geodesic α)
    (hzero : ∀ lat lon : α, (geod.Inverse lat lon lat lon).s12 = 0)
    (hstay : ∀ lat lon azi : α,
      ((geod.Direct lat lon azi 0).lat2, (geod.Direct lat lon azi 0).lon2) = (lat, lon))
    (lastPoint penultimatePoint currentPoint : Point α)
    (hc : currentPoint = lastPoint) :
    getPrependicularDestination geod lastPoint penultimatePoint currentPoint =
      lastPoint := by
  subst hc
  simp only [getPrependicularDestination, hzero]
  exact hstay _ _ _

/-- Witness of C8: the second sample engine, anchor (2, 3), segment from (1, 1). -/
theorem C8_scenario_C_witness :
    getPrependicularDestination northEngine (2, 3) (1, 1) (2, 3) = (2, 3) :=
  C8_scenario_C northEngine (fun lat lon => by simp [northEngine])
    (fun lat lon azi => by simp [northEngine]) (2, 3) (1, 1) (2, 3) rfl

/-- C9 (as stated, refuted). For the coincident segment `lastPoint =
penultimatePoint = (0, 0)` and the cursor (1, 1) the engine-defined azimuth of the
zero-length inverse is 0, but the function returns 90. -/
theorem C9_counterexample :
    drawnAzimuth shiftEngine (0, 0) (0, 0) = 0 ∧
    getPerpendicularAzimuth shiftEngine (0, 0) (0, 0) (1, 1) = 90 ∧
    getPerpendicularAzimuth shiftEngine (0, 0) (0, 0) (1, 1) ≠
      drawnAzimuth shiftEngine (0, 0) (0, 0) := by
  have hd : drawnAzimuth shiftEngine (0, 0) (0, 0) = 0 := by
    norm_num [drawnAzimuth, shiftEngine]
  have hr : getPerpendicularAzimuth shiftEngine (0, 0) (0, 0) (1, 1) = 90 := by
    norm_num [getPerpendicularAzimuth, Id.run, shiftEngine]
  refine ⟨hd, hr, ?_⟩
  rw [hd, hr]
  decide

/-- C9 (amended). For coincident `lastPoint = penultimatePoint` the function
applies no special guard: the test `lastPoint[1] === penultimatePoint[1]` of the
branch `N & S` holds, and the result is 90 if `current.y > last.y` and -90
otherwise, for every engine and every `currentPoint`. -/
theorem C9_coincident_segment (geod : Geodesic α) (lastPoint currentPoint : Point α) :
    getPerpendicularAzimuth geod lastPoint lastPoint currentPoint =
      if currentPoint.2 > lastPoint.2 then 90 else -90 :=
  azimuth_equal_y geod lastPoint lastPoint currentPoint rfl

/-! ## Claims about `getPerpendicularCoordinates` -/

/-- C10. `getPerpendicularCoordinates` follows the quadrant table: it returns
`[lastPoint, corner]` with `corner = (last.x, current.y)` when `current.x > last.x`
and `current.y < last.y`; `(current.x, last.y)` when both are greater;
`(last.x, current.y)` when `current.x < last.x` and `current.y > last.y`;
`(current.x, last.y)` when both are smaller; and `corner = currentPoint` exactly
when `current.x = last.x` or `current.y = last.y`. -/
theorem C10_quadrant_table (lastPoint currentPoint : Point α) :
    (getPerpendicularCoordinates lastPoint currentPoint).1 = lastPoint ∧
    (currentPoint.1 > lastPoint.1 ∧ currentPoint.2 < lastPoint.2 →
      (getPerpendicularCoordinates lastPoint currentPoint).2 =
        (lastPoint.1, currentPoint.2)) ∧
    (currentPoint.1 > lastPoint.1 ∧ currentPoint.2 > lastPoint.2 →
      (getPerpendicularCoordinates lastPoint currentPoint).2 =
        (currentPoint.1, lastPoint.2)) ∧
    (currentPoint.1 < lastPoint.1 ∧ currentPoint.2 > lastPoint.2 →
      (getPerpendicularCoordinates lastPoint currentPoint).2 =
        (lastPoint.1, currentPoint.2)) ∧
    (currentPoint.1 < lastPoint.1 ∧ currentPoint.2 < lastPoint.2 →
      (getPerpendicularCoordinates lastPoint currentPoint).2 =
        (currentPoint.1, lastPoint.2)) ∧
    ((getPerpendicularCoordinates lastPoint currentPoint).2 = currentPoint ↔
      currentPoint.1 = lastPoint.1 ∨ currentPoint.2 = lastPoint.2) := by
  obtain ⟨lx, ly⟩ := lastPoint
  obtain ⟨cx, cy⟩ := currentPoint
  simp only [getPerpendicularCoordinates, Id.run, pure, bind]
  rcases lt_trichotomy cx lx with hx | rfl | hx <;>
  rcases lt_trichotomy cy ly with hy | rfl | hy <;>
  simp [*, not_lt_of_gt, ne_of_lt, ne_of_gt]

/-- Witness of C10: the cursor (5, 1) lies on the greater-x, smaller-y side of
(2, 3); the corner is (2, 1). -/
theorem C10_quadrant_table_witness :
    ((5 : ℚ) > 2 ∧ (1 : ℚ) < 3) ∧
    (getPerpendicularCoordinates ((2, 3) : Point ℚ) (5, 1)).2 = (2, 1) :=
  ⟨by decide, (C10_quadrant_table ((2, 3) : Point ℚ) (5, 1)).2.1 (by decide)⟩

/-! ## Further claims about the perpendicular helpers and the coordinate adapters -/

/-- C11 (as stated, refuted). In scenario B the cursor (1, -1) lies on the
greater-x, smaller-y side of (0, 0), which is the first test of the source; the
corner is `(last.x, current.y) = (0, -1)`, not (1, 0). -/
theorem C11_counterexample :
    getPerpendicularCoordinates ((0, 0) : Point ℚ) (1, -1) ≠ ((0, 0), (1, 0)) := by
  decide

/-- C11 (amended). Scenario B: `getPerpendicularCoordinates` with
`lastPoint = (0, 0)` and `currentPoint = (1, -1)` returns `[(0, 0), (0, -1)]`. -/
theorem C11_scenario_B :
    getPerpendicularCoordinates ((0, 0) : Point α) (1, -1) = ((0, 0), (0, -1)) := by
  simp [getPerpendicularCoordinates, Id.run]

/-- C12. Adapter round trip: for a two-component point `p`, when the
reprojection from the geographic system to the map projection inverts the one
from the map projection to the geographic system,
`transformCoordFromGeolib(transformCoordForGeolib(p))` returns `p`. -/
theorem C12_adapter_round_trip {β : Type} (transform : List β → String → String → List β)
    (p : List β) (hp : p.length = 2)
    (hinv : ∀ q : List β, q.length = 2 →
      transform (transform q DEFAULT_OL_CRS DEFAULT_GEOLIB_CRS)
        DEFAULT_GEOLIB_CRS DEFAULT_OL_CRS = q) :
    (transformCoordFromGeolib transform
      (transformCoordForGeolib transform p).returned).returned = p := by
  simp only [transformCoordFromGeolib, transformCoordForGeolib, List.reverse_reverse]
  exact hinv p hp

theorem sampleTransform_inverts (q : List ℚ) :
    sampleTransform (sampleTransform q DEFAULT_OL_CRS DEFAULT_GEOLIB_CRS)
      DEFAULT_GEOLIB_CRS DEFAULT_OL_CRS = q := by
  have h1 : ¬ (DEFAULT_GEOLIB_CRS = DEFAULT_OL_CRS ∧ DEFAULT_OL_CRS = DEFAULT_GEOLIB_CRS) := by
    decide
  simp only [sampleTransform, and_self, if_true, h1, if_false, List.map_map]
  have hfun : ((fun c : ℚ => c * 2) ∘ fun c : ℚ => c / 2) = id := by
    funext c
    simp
  rw [hfun, List.map_id]

/-- Witness of C12: the sample reprojection on the point (6, 10). -/
theorem C12_adapter_round_trip_witness :
    ([6, 10] : List ℚ).length = 2 ∧
    (transformCoordFromGeolib sampleTransform
      (transformCoordForGeolib sampleTransform [6, 10]).returned).returned = [6, 10] :=
  ⟨rfl, C12_adapter_round_trip sampleTransform [6, 10] rfl
    (fun q _ => sampleTransform_inverts q)⟩

/-- C13 (the code at the failing input). After `transformCoordFromGeolib([1, 2])`
the array of the caller holds `[2, 1]`: `coords.reverse()` has reversed it in
place.  After `transformCoordForGeolib([1, 2])` it still holds `[1, 2]`. -/
theorem C13_input_reversed :
    (transformCoordFromGeolib sampleTransform [1, 2]).argument = [2, 1] ∧
    (transformCoordFromGeolib sampleTransform [1, 2]).argument ≠ [1, 2] ∧
    (transformCoordForGeolib sampleTransform [1, 2]).argument = [1, 2] := by
  refine ⟨rfl, ?_, rfl⟩
  show ([2, 1] : List ℚ) ≠ [1, 2]
  decide

/-- C17. Fall-through of `getPerpendicularAzimuth`: on a strictly diagonal
segment, with `current.y = last.y` and the quadrant threshold failing or
`current.x = last.x`, no branch matches and the function returns `drawnAzimuth`
unchanged from its last line (in particular when `currentPoint = lastPoint`);
for every other input with `lastPoint ≠ penultimatePoint` the final `return` is
not reached. -/
theorem C17_fall_through (geod : Geodesic α)
    (lastPoint penultimatePoint currentPoint : Point α) :
    (∀ q, specQuadrant lastPoint penultimatePoint = some q →
      currentPoint.2 = lastPoint.2 →
      (¬ specThreshold q (drawnAzimuth geod lastPoint penultimatePoint) ∨
        currentPoint.1 = lastPoint.1) →
      getPerpendicularAzimuth geod lastPoint penultimatePoint currentPoint =
          drawnAzimuth geod lastPoint penultimatePoint ∧
        (getPerpendicularAzimuthReturn geod lastPoint penultimatePoint currentPoint).1 =
          196) ∧
    (lastPoint.1 ≠ penultimatePoint.1 → lastPoint.2 ≠ penultimatePoint.2 →
      getPerpendicularAzimuth geod lastPoint penultimatePoint lastPoint =
        drawnAzimuth geod lastPoint penultimatePoint) ∧
    (lastPoint ≠ penultimatePoint →
      (getPerpendicularAzimuthReturn geod lastPoint penultimatePoint currentPoint).1 =
        196 →
      (lastPoint.1 ≠ penultimatePoint.1 ∧ lastPoint.2 ≠ penultimatePoint.2) ∧
        currentPoint.2 = lastPoint.2 ∧
        ∃ q, specQuadrant lastPoint penultimatePoint = some q ∧
          (¬ specThreshold q (drawnAzimuth geod lastPoint penultimatePoint) ∨
            currentPoint.1 = lastPoint.1)) := by
  have hfall : ∀ (c : Point α) (q : Quadrant),
      specQuadrant lastPoint penultimatePoint = some q → c.2 = lastPoint.2 →
      (¬ specThreshold q (drawnAzimuth geod lastPoint penultimatePoint) ∨
        c.1 = lastPoint.1) →
      getPerpendicularAzimuth geod lastPoint penultimatePoint c =
          drawnAzimuth geod lastPoint penultimatePoint ∧
        (getPerpendicularAzimuthReturn geod lastPoint penultimatePoint c).1 = 196 := by
    intro c q hq hy hth
    have h := azimuthReturn_fallthrough geod lastPoint penultimatePoint c q hq hth hy
    constructor
    · rw [← azimuthReturn_value, h]
    · rw [h]
  refine ⟨fun q hq hy hth => hfall currentPoint q hq hy hth, ?_, ?_⟩
  · intro hx hy
    cases hq : specQuadrant lastPoint penultimatePoint with
    | none =>
      rcases specQuadrant_eq_none hq with h | h
      · exact absurd h hx
      · exact absurd h hy
    | some q => exact (hfall lastPoint q hq rfl (Or.inr rfl)).1
  · intro _ hsite
    cases hq : specQuadrant lastPoint penultimatePoint with
    | none =>
      exact absurd hsite (azimuthReturn_axis geod _ _ _ (specQuadrant_eq_none hq))
    | some q =>
      have hdiag : lastPoint.1 ≠ penultimatePoint.1 ∧ lastPoint.2 ≠ penultimatePoint.2 := by
        rcases specQuadrant_eq_some hq with
          ⟨_, h1, h2⟩ | ⟨_, h1, h2⟩ | ⟨_, h1, h2⟩ | ⟨_, h1, h2⟩
        · exact ⟨ne_of_gt h1, ne_of_gt h2⟩
        · exact ⟨ne_of_gt h1, ne_of_lt h2⟩
        · exact ⟨ne_of_lt h1, ne_of_gt h2⟩
        · exact ⟨ne_of_lt h1, ne_of_lt h2⟩
      have hrule : ¬ specThreshold q (drawnAzimuth geod lastPoint penultimatePoint) ∨
          currentPoint.1 = lastPoint.1 := by
        by_cases ht : specThreshold q (drawnAzimuth geod lastPoint penultimatePoint)
        · right
          by_contra hx
          exact azimuthReturn_primary geod _ _ _ q hq ht hx hsite
        · exact Or.inl ht
      have hy : currentPoint.2 = lastPoint.2 := by
        by_contra hy
        exact azimuthReturn_secondary geod _ _ _ q hq hrule hy hsite
      exact ⟨hdiag, hy, q, rfl, hrule⟩

/-- Witness of C17: the NE segment from (1, 2) to (150, 4), whose threshold
fails on the sample engine, and the cursor (160, 4). -/
theorem C17_fall_through_witness :
    specQuadrant ((150, 4) : Point ℚ) (1, 2) = some Quadrant.NE ∧
    getPerpendicularAzimuth shiftEngine (150, 4) (1, 2) (160, 4) =
      drawnAzimuth shiftEngine (150, 4) (1, 2) ∧
    (getPerpendicularAzimuthReturn shiftEngine (150, 4) (1, 2) (160, 4)).1 = 196 :=
  ⟨by decide,
    (C17_fall_through shiftEngine (150, 4) (1, 2) (160, 4)).1 Quadrant.NE (by decide) rfl
      (Or.inl (by norm_num [specThreshold, drawnAzimuth, shiftEngine]))⟩

/-- C18. `getPerpendicularCoordinates` always yields an axis-aligned leg anchored
at `lastPoint`: the first returned point is `lastPoint`, the second shares
coordinate 0 or coordinate 1 with `lastPoint`, and each of its coordinates is
that of `lastPoint` or of `currentPoint` at the same index. -/
theorem C18_axis_aligned_leg (lastPoint currentPoint : Point α) :
    (getPerpendicularCoordinates lastPoint currentPoint).1 = lastPoint ∧
    ((getPerpendicularCoordinates lastPoint currentPoint).2.1 = lastPoint.1 ∨
      (getPerpendicularCoordinates lastPoint currentPoint).2.2 = lastPoint.2) ∧
    ((getPerpendicularCoordinates lastPoint currentPoint).2.1 = lastPoint.1 ∨
      (getPerpendicularCoordinates lastPoint currentPoint).2.1 = currentPoint.1) ∧
    ((getPerpendicularCoordinates lastPoint currentPoint).2.2 = lastPoint.2 ∨
      (getPerpendicularCoordinates lastPoint currentPoint).2.2 = currentPoint.2) := by
  obtain ⟨lx, ly⟩ := lastPoint
  obtain ⟨cx, cy⟩ := currentPoint
  simp only [getPerpendicularCoordinates, Id.run, pure, bind]
  rcases lt_trichotomy cx lx with hx | rfl | hx <;>
  rcases lt_trichotomy cy ly with hy | rfl | hy <;>
  simp [*, not_lt_of_gt]

end PerpendicularCalculations

namespace Util

/-! ## Claims about `src/ol/util.js` -/

theorem digitValue_digitChar (k : Nat) (hk : k < 10) : digitValue (Nat.digitChar k) = k := by
  interval_cases k <;> rfl

theorem foldl_toDigitsCore (fuel : Nat) : ∀ (n : Nat) (ds : List Char), n < fuel →
    (Nat.toDigitsCore 10 fuel n ds).foldl (fun acc c => acc * 10 + digitValue c) 0 =
      ds.foldl (fun acc c => acc * 10 + digitValue c) n := by
  induction fuel with
  | zero => intro n ds h; exact absurd h (Nat.not_lt_zero n)
  | succ fuel ih =>
    intro n ds h
    have hmod : digitValue (Nat.digitChar (n % 10)) = n % 10 :=
      digitValue_digitChar _ (Nat.mod_lt _ (by decide))
    simp only [Nat.toDigitsCore]
    split_ifs with h0
    · have hn : n % 10 = n := Nat.mod_eq_of_lt (by omega)
      simp only [List.foldl, hmod]
      rw [hn, Nat.zero_mul, Nat.zero_add]
    · have hlt : n / 10 < fuel := by omega
      rw [ih (n / 10) _ hlt]
      simp only [List.foldl, hmod]
      congr 1
      omega

theorem decimalValue_toDigits (n : Nat) : decimalValue (Nat.toDigits 10 n) = n := by
  unfold decimalValue Nat.toDigits
  rw [foldl_toDigitsCore (n + 1) n [] (Nat.lt_succ_self n)]
  rfl

theorem toString_nat_injective {m n : Nat} (h : toString m = toString n) : m = n := by
  have h1 : (Nat.toDigits 10 m).asString = (Nat.toDigits 10 n).asString := h
  have h2 : Nat.toDigits 10 m = Nat.toDigits 10 n := by
    have := congrArg String.data h1
    simpa using this
  have h3 := congrArg decimalValue h2
  rwa [decimalValue_toDigits, decimalValue_toDigits] at h3

theorem toString_succ_ne_empty (n : Nat) : toString (n + 1) ≠ "" := by
  intro h
  have h1 : (Nat.toDigits 10 (n + 1)).asString = "" := h
  have h2 : Nat.toDigits 10 (n + 1) = [] := by
    have := congrArg String.data h1
    simpa using this
  have h3 := congrArg decimalValue h2
  rw [decimalValue_toDigits] at h3
  simp [decimalValue] at h3


/-- C14. `replaceLastArrayEntry` replaces only the last element: for a non-empty
array `a` and an item `v` the result has the length of `a`, its last element is
`v`, every element at an index below `length - 1` is that of `a`, and `a` itself
keeps its content. -/
theorem C14_replaces_only_last {β : Type} (a : List β) (v : β) (ha : a ≠ []) :
    (replaceLastArrayEntry a v).returned.length = a.length ∧
    (replaceLastArrayEntry a v).returned.getLast? = some v ∧
    (∀ i, i < a.length - 1 → (replaceLastArrayEntry a v).returned[i]? = a[i]?) ∧
    (replaceLastArrayEntry a v).argument = a := by
  have hlen : 0 < a.length := List.length_pos.mpr ha
  refine ⟨?_, ?_, ?_, rfl⟩
  · simp only [replaceLastArrayEntry, List.length_append, List.length_dropLast,
      List.length_singleton]
    omega
  · simp [replaceLastArrayEntry]
  · intro i hi
    simp only [replaceLastArrayEntry]
    rw [List.getElem?_append_left (by simpa using hi), List.dropLast_eq_take,
      List.getElem?_take_of_lt hi]

/-- Witness of C14: the last entry of `[1, 2, 3]` replaced by 9. -/
theorem C14_replaces_only_last_witness :
    (replaceLastArrayEntry [1, 2, 3] 9).returned = [1, 2, 9] ∧
    (replaceLastArrayEntry [1, 2, 3] 9).returned.length = [1, 2, 3].length :=
  ⟨rfl, (C14_replaces_only_last [1, 2, 3] 9 (by decide)).1⟩

/-- C19. On the empty array `replaceLastArrayEntry` appends: the result is `[v]`,
one element longer than the input; in general the result is the input without
its last element, followed by `v`. -/
theorem C19_appends_on_empty {β : Type} (v : β) (a : List β) :
    (replaceLastArrayEntry ([] : List β) v).returned = [v] ∧
    (replaceLastArrayEntry ([] : List β) v).returned.length = ([] : List β).length + 1 ∧
    (replaceLastArrayEntry a v).returned = a.take (a.length - 1) ++ [v] := by
  refine ⟨rfl, rfl, ?_⟩
  simp only [replaceLastArrayEntry, List.dropLast_eq_take]


theorem toString_nat_ne_empty (n : Nat) : toString n ≠ "" := by
  cases n with
  | zero => decide
  | succ m => exact toString_succ_ne_empty m

/-- The bound on the number of steps is never reached: any two bounds above the
number of the object give the same read. -/
theorem readOlUid_steps (st : UidState) : ∀ (s₁ s₂ obj : Nat),
    obj < s₁ → obj < s₂ → readOlUid st s₁ obj = readOlUid st s₂ obj := by
  intro s₁
  induction s₁ with
  | zero => intro s₂ obj h; exact absurd h (Nat.not_lt_zero obj)
  | succ s₁ ih =>
    intro s₂ obj h₁ h₂
    cases s₂ with
    | zero => exact absurd h₂ (Nat.not_lt_zero obj)
    | succ s₂ =>
      simp only [readOlUid]
      cases st.ol_uid obj with
      | some uid => rfl
      | none =>
        cases hp : st.prototype obj with
        | none => rfl
        | some parent =>
          have := parent.isLt
          exact ih s₂ parent.val (by omega) (by omega)

/-- Writing the own property of an object whose read is falsy does not change
the truthy read of any object. -/
theorem readOlUid_update (st : UidState) (other : Nat) (v : String) (c : Nat)
    (hfalsy : readOlUid st (other + 1) other = none ∨
      readOlUid st (other + 1) other = some "") :
    ∀ (steps obj : Nat) (u : String), obj < steps →
      readOlUid st steps obj = some u → u ≠ "" →
      readOlUid
          { uidCounter_ := c
            ol_uid := Function.update st.ol_uid other (some v)
            prototype := st.prototype }
          steps obj = some u := by
  intro steps
  induction steps with
  | zero => intro obj u h; exact absurd h (Nat.not_lt_zero obj)
  | succ steps ih =>
    intro obj u hlt hread hu
    have hne : obj ≠ other := by
      intro e
      subst e
      rw [readOlUid_steps st (obj + 1) (steps + 1) obj (Nat.lt_succ_self obj) hlt, hread]
        at hfalsy
      rcases hfalsy with h | h
      · exact Option.noConfusion h
      · exact hu (Option.some.inj h)
    simp only [readOlUid] at hread ⊢
    rw [Function.update_noteq hne]
    cases hown : st.ol_uid obj with
    | some uid =>
      rw [hown] at hread
      exact hread
    | none =>
      rw [hown] at hread
      cases hp : st.prototype obj with
      | none =>
        rw [hp] at hread
        exact Option.noConfusion hread
      | some parent =>
        rw [hp] at hread
        have := parent.isLt
        exact ih parent.val u (by omega) hread hu

/-- After a call on `obj` the read `obj.ol_uid` gives the returned, non-empty
identifier. -/
theorem getUid_stored (st : UidState) (obj : Obj) :
    readOlUid (getUid st obj).2 (obj + 1) obj = some (getUid st obj).1 ∧
      (getUid st obj).1 ≠ "" := by
  have hassign : readOlUid
        { uidCounter_ := increment st.uidCounter_
          ol_uid := Function.update st.ol_uid obj (some (toString (increment st.uidCounter_)))
          prototype := st.prototype }
        (obj + 1) obj = some (toString (increment st.uidCounter_)) := by
    simp [readOlUid]
  unfold getUid
  cases hobj : readOlUid st (obj + 1) obj with
  | none => exact ⟨hassign, toString_nat_ne_empty _⟩
  | some uid =>
    by_cases hu : uid = ""
    · simp only [hu, if_true]
      exact ⟨hassign, toString_nat_ne_empty _⟩
    · simp only [hu, if_false]
      exact ⟨hobj, hu⟩

/-- A call on an object whose read gives a non-empty identifier returns it and
changes nothing. -/
theorem getUid_of_stored (st : UidState) (obj : Obj) (u : String)
    (h : readOlUid st (obj + 1) obj = some u) (hu : u ≠ "") : getUid st obj = (u, st) := by
  unfold getUid
  simp [h, hu]

/-- A non-empty identifier read on `obj` survives every call of `getUid`. -/
theorem getUid_preserves_stored (st : UidState) (obj other : Obj) (u : String)
    (h : readOlUid st (obj + 1) obj = some u) (hu : u ≠ "") :
    readOlUid (getUid st other).2 (obj + 1) obj = some u := by
  unfold getUid
  cases hother : readOlUid st (other + 1) other with
  | none =>
    exact readOlUid_update st other _ _ (Or.inl hother) (obj + 1) obj u
      (Nat.lt_succ_self obj) h hu
  | some uid =>
    by_cases hu2 : uid = ""
    · simp only [hu2, if_true]
      exact readOlUid_update st other _ _ (Or.inr (hu2 ▸ hother)) (obj + 1) obj u
        (Nat.lt_succ_self obj) h hu
    · simp only [hu2, if_false]
      exact h

theorem getUidCalls_preserves_stored (objs : List Obj) :
    ∀ (st : UidState) (obj : Obj) (u : String),
      readOlUid st (obj + 1) obj = some u → u ≠ "" →
      readOlUid (getUidCalls st objs) (obj + 1) obj = some u := by
  induction objs with
  | nil => intro st obj u h _; exact h
  | cons o rest ih =>
    intro st obj u h hu
    exact ih _ obj u (getUid_preserves_stored st obj o u h hu) hu

/-- C15. `getUid` is stable per object: once `getUid(obj)` has returned `u`,
after any further sequence of `getUid` calls (on other objects or on `obj`
itself) a call `getUid(obj)` returns the same `u` and leaves the counter and
every `ol_uid` field as they were. -/
theorem C15_getUid_stable (st : UidState) (obj : Obj) (between : List Obj) :
    getUid (getUidCalls (getUid st obj).2 between) obj =
      ((getUid st obj).1, getUidCalls (getUid st obj).2 between) ∧
    (getUid (getUidCalls (getUid st obj).2 between) obj).2.uidCounter_ =
      (getUidCalls (getUid st obj).2 between).uidCounter_ := by
  have hs := getUid_stored st obj
  have hkeep := getUidCalls_preserves_stored between (getUid st obj).2 obj
    (getUid st obj).1 hs.1 hs.2
  have heq := getUid_of_stored _ obj _ hkeep hs.2
  exact ⟨heq, by rw [heq]⟩

/-- C16 (the code at the failing input). From the initial state, with object 1
created from prototype 0 and neither carrying an `ol_uid` of its own,
`getUid(parent)` assigns "1" and `getUid(child)` then reads the property of the
parent through the prototype chain: it returns "1" again, assigns nothing and
leaves the counter at 1.  Two distinct objects have received the same
identifier. -/
theorem C16_prototype_shares_identifier :
    (initialState childOfZero).ol_uid 0 = none ∧
    (initialState childOfZero).ol_uid 1 = none ∧
    (getUid (initialState childOfZero) 0).1 = "1" ∧
    (getUid (getUid (initialState childOfZero) 0).2 1).1 = "1" ∧
    (getUid (getUid (initialState childOfZero) 0).2 1).2.ol_uid 1 = none ∧
    (getUid (getUid (initialState childOfZero) 0).2 1).2.uidCounter_ = 1 := by
  decide

end Util
